import Mathlib

/-!
A verification development for `src/process_prompt.py`, a single-file batch
pipeline that renders Jinja2 prompt templates with per-job variables, invokes
a text-generation service, writes each completion to a local file, and uploads
it to an object store under an environment-specific key prefix.

The embedding below models, faithfully to the source:
  * process environment lookup (`os.getenv`) and Python truthiness of strings;
  * the `'{{' name '}}'` variable-substitution subset of Jinja2 used by the
    jobs, with Jinja2's default-`Undefined` semantics (an undefined variable
    renders as the empty string; rendering does not raise);
  * Python's `str.replace` (replace every non-overlapping occurrence,
    scanning left to right);
  * `get_region`, `render_prompt`, `construct_body`, `call_bedrock`, and the
    `main` workflow (region resolution, bucket/prefix selection, per-job
    processing loop, local write, one or two uploads per job).
Network services are oracles passed in as functions; the filesystem and the
process environment are association lists from names to contents; uploads are
recorded as an ordered event trace.
-/

set_option maxHeartbeats 1000000

abbrev EnvMap := List (String × String)

/-- First-match association-list lookup (models both `os.getenv` and reading
a file from a directory tree). -/
def lookupStr : EnvMap → String → Option String
  | [], _ => none
  | (k, v) :: m, key => if k == key then some v else lookupStr m key

/-- `os.getenv name`: `some value` when set, `none` when absent. -/
def getenv (e : EnvMap) (k : String) : Option String := lookupStr e k

/-- Python truthiness of an optional string: `None` and `""` are falsy. -/
def truthy : Option String → Bool
  | none => false
  | some s => !(s == "")

/-- Python `a or b` on optional strings: `b` when `a` is falsy. -/
def pyOr (a b : Option String) : Option String := if truthy a then a else b

/-- `os.getenv name default`: the default only when the variable is absent. -/
def getenvD (e : EnvMap) (k d : String) : String := (getenv e k).getD d

/-- Module constant `BETA_PREFIX = os.getenv("BETA_PREFIX", "beta/")`. -/
def betaPfx (e : EnvMap) : String := getenvD e "BETA_PREFIX" "beta/"

/-- Module constant `PROD_PREFIX = os.getenv("PROD_PREFIX", "prod/")`. -/
def prodPfx (e : EnvMap) : String := getenvD e "PROD_PREFIX" "prod/"

/-- The opening brace character, written numerically. -/
def lbrace : Char := Char.ofNat 123

/-- The closing brace character, written numerically. -/
def rbrace : Char := Char.ofNat 125

/-- One part of a parsed template: literal text or a variable reference. -/
inductive TPart where
  | lit (s : String)
  | var (name : String)
deriving DecidableEq

/-- Scan up to the closing marker of a variable block; returns the inner
characters and the characters after the marker. -/
def splitClose : List Char → Option (List Char × List Char)
  | [] => none
  | c :: rest =>
    if c == rbrace && rest.head? == some rbrace then
      some ([], rest.drop 1)
    else
      match splitClose rest with
      | some (inner, after) => some (c :: inner, after)
      | none => none

/-- Whitespace trimming used for the name inside a variable block. -/
def isSpaceChar (c : Char) : Bool := c == ' ' || c == '\t' || c == '\n' || c == '\r'

def trimChars (cs : List Char) : List Char :=
  (((cs.dropWhile isSpaceChar).reverse).dropWhile isSpaceChar).reverse

/-- Fuel-indexed template scanner over the character list. -/
def parseTmplAux : Nat → List Char → List TPart
  | _, [] => []
  | 0, cs => [TPart.lit (String.mk cs)]
  | fuel + 1, c :: cs =>
    if c == lbrace && cs.head? == some lbrace then
      match splitClose (cs.drop 1) with
      | some (inner, after) => TPart.var (String.mk (trimChars inner)) :: parseTmplAux fuel after
      | none => [TPart.lit (String.mk (c :: cs))]
    else
      TPart.lit (String.mk [c]) :: parseTmplAux fuel cs

/-- Parse a template string into literal and variable parts. -/
def parseTemplate (s : String) : List TPart := parseTmplAux s.data.length s.data

/-- Render parsed template parts against a variable mapping.  A variable
absent from the mapping renders as the empty string: this is Jinja2's
default-`Undefined` behaviour, which `jinja2.Template(...).render(...)` uses
because the source never selects `StrictUndefined`. -/
def renderParts (parts : List TPart) (vars : EnvMap) : String :=
  parts.foldl (fun acc p =>
    match p with
    | TPart.lit s => acc ++ s
    | TPart.var n => acc ++ ((lookupStr vars n).getD "")) ""

/-- Fuel-indexed model of Python `str.replace`: replace every non-overlapping
occurrence of `pat`, scanning left to right. -/
def replaceAllAux (pat repl : List Char) : Nat → List Char → List Char
  | _, [] => []
  | 0, cs => cs
  | fuel + 1, c :: cs =>
    if pat.isPrefixOf (c :: cs) then
      repl ++ replaceAllAux pat repl fuel (List.drop pat.length (c :: cs))
    else
      c :: replaceAllAux pat repl fuel cs

/-- Python `s.replace(pat, repl)` for a non-empty pattern. -/
def replaceAll (s pat repl : String) : String :=
  String.mk (replaceAllAux pat.data repl.data s.data.length s.data)

/-- A parsed job definition file: `variables`, `output_file`, and the
optional `make_index` flag (`cfg.get("make_index", False)`). -/
structure JobConfig where
  vars : EnvMap
  output_file : String
  make_index : Bool
deriving DecidableEq

/-- `render_prompt`: read the template file and render it with the job's
variables.  A missing file is a propagated error. -/
def render_prompt (fs : EnvMap) (template_path : String) (cfg : JobConfig) : Except String String :=
  match lookupStr fs template_path with
  | some text => Except.ok (renderParts (parseTemplate text) cfg.vars)
  | none => Except.error ("FileNotFoundError: " ++ template_path)

/-- One message of the Bedrock request body. -/
structure Message where
  role : String
  content : String
deriving DecidableEq

/-- The invoke-body expected by Amazon Bedrock. -/
structure Body where
  anthropic_version : String
  max_tokens : Nat
  messages : List Message
deriving DecidableEq

/-- `construct_body`: the fixed envelope around a prompt. -/
def construct_body (prompt : String) (maxTokens : Nat) : Body :=
  ⟨"bedrock-2023-05-31", maxTokens, [⟨"user", "Human: " ++ prompt⟩]⟩

/-- One chunk of the structured Bedrock response (`chunk["text"]`). -/
structure Chunk where
  text : String
deriving DecidableEq

/-- `call_bedrock`: invoke the service (an oracle from region and body to
response chunks) and join every chunk's text in order. -/
def call_bedrock (invoke : String → Body → List Chunk) (prompt : String)
    (maxTokens : Nat) (region : String) : String :=
  String.join ((invoke region (construct_body prompt maxTokens)).map Chunk.text)

/-- Error message of `get_region` (names both accepted variables). -/
def regionErrMsg : String :=
  "[X] No AWS region specified.\n-> Set AWS_REGION or AWS_DEFAULT_REGION (e.g., us-east-1)."

/-- `get_region`: `os.getenv("AWS_REGION") or os.getenv("AWS_DEFAULT_REGION")`,
raising when the result is falsy. -/
def get_region (osenv : EnvMap) : Except String String :=
  match pyOr (getenv osenv "AWS_REGION") (getenv osenv "AWS_DEFAULT_REGION") with
  | some r => if r == "" then Except.error regionErrMsg else Except.ok r
  | none => Except.error regionErrMsg

/-- Error message of the bucket guard in `main` (names the needed variable). -/
def bucketErrMsg (env : String) : String :=
  "[X] No S3 bucket defined for environment " ++ env ++ ".\n-> Set " ++
    (if env == "beta" then "S3_BUCKET_BETA" else "S3_BUCKET_PROD") ++ "."

/-- Bucket selection in `main`: `S3_BUCKET_BETA` iff the selector is the
literal `"beta"`, else `S3_BUCKET_PROD`. -/
def selectBucket (osenv : EnvMap) (env : String) : Option String :=
  if env == "beta" then getenv osenv "S3_BUCKET_BETA" else getenv osenv "S3_BUCKET_PROD"

/-- Key-prefix selection in `main`: `BETA_PREFIX` iff the selector is the
literal `"beta"`, else `PROD_PREFIX`. -/
def selectPfx (osenv : EnvMap) (env : String) : String :=
  if env == "beta" then betaPfx osenv else prodPfx osenv

/-- Template path construction in `main`:
`f"prompt_templates/{config_path.stem.replace('_prompt', '')}.txt"`. -/
def tmplFile (stem : String) : String :=
  "prompt_templates/" ++ replaceAll stem "_prompt" "" ++ ".txt"

/-- Output filename rendering in `main`:
`Template(cfg["output_file"]).render(**cfg["variables"])` — the same
substitution mechanism as the prompt. -/
def renderOut (cfg : JobConfig) : String :=
  renderParts (parseTemplate cfg.output_file) cfg.vars

/-- Observable state of one run: the local `outputs/` directory as a store
(newest write first) and the ordered trace of uploads
`(bucket, key, uploaded bytes)`. -/
structure RunState where
  outputs : EnvMap
  s3 : List (String × String × String)
deriving DecidableEq

/-- Content currently at `(bucket, key)` in the object store: the content of
the last upload event to that key. -/
def s3Last (evts : List (String × String × String)) (bucket key : String) : Option String :=
  ((evts.reverse).find? (fun e => e.1 == bucket && e.2.1 == key)).map (fun e => e.2.2)

/-- The body of `main`'s per-job loop: render the prompt from the template
file, render the output filename, call the generation service, write the
completion to `outputs/`, upload the written file under
`{prefix}{filename}`, and — when `make_index` is set — upload the same file
again under `{prefix}index.html`.  Every upload reads the local file as it
is on disk at upload time. -/
def processJob (fs : EnvMap) (br : String → Body → List Chunk) (region bucket pfx : String)
    (st : RunState) (job : String × JobConfig) : Except String RunState :=
  match render_prompt fs (tmplFile job.1) job.2 with
  | Except.error e => Except.error e
  | Except.ok rendered_prompt =>
    let filename_rendered := renderOut job.2
    let completion := call_bedrock br rendered_prompt 300 region
    let out_path := "outputs/" ++ filename_rendered
    let outputs1 := (out_path, completion) :: st.outputs
    let uploaded := (lookupStr outputs1 out_path).getD ""
    let s3_key := pfx ++ filename_rendered
    let s3a := st.s3 ++ [(bucket, s3_key, uploaded)]
    let s3b :=
      if job.2.make_index then s3a ++ [(bucket, pfx ++ "index.html", uploaded)] else s3a
    Except.ok ⟨outputs1, s3b⟩

/-- The `for config_path in ...glob(...)` loop: process jobs in iteration
order, stopping at the first error (no job-level error handling exists in
the source). -/
def runJobs (fs : EnvMap) (br : String → Body → List Chunk) (region bucket pfx : String) :
    RunState → List (String × JobConfig) → Except String RunState
  | st, [] => Except.ok st
  | st, j :: rest =>
    match processJob fs br region bucket pfx st j with
    | Except.ok st' => runJobs fs br region bucket pfx st' rest
    | Except.error e => Except.error e

/-- `main(env)`: resolve the region, select and check the bucket, select the
prefix, then run every job.  `jobs` is the glob result in iteration order,
already parsed; `fs` is the template directory; `br` is the generation
service. -/
def mainRun (osenv fs : EnvMap) (br : String → Body → List Chunk)
    (jobs : List (String × JobConfig)) (env : String) : Except String RunState :=
  match get_region osenv with
  | Except.error e => Except.error e
  | Except.ok region =>
    if truthy (selectBucket osenv env) then
      runJobs fs br region ((selectBucket osenv env).getD "") (selectPfx osenv env) ⟨[], []⟩ jobs
    else
      Except.error (bucketErrMsg env)

/-- The `__main__` entry point: `main(os.getenv("DEPLOY_ENV", "beta"))`. -/
def deployEnv (osenv : EnvMap) : String := getenvD osenv "DEPLOY_ENV" "beta"

def mainEntry (osenv fs : EnvMap) (br : String → Body → List Chunk)
    (jobs : List (String × JobConfig)) : Except String RunState :=
  mainRun osenv fs br jobs (deployEnv osenv)

/-- Does `pat` occur as a contiguous substring of the character list? -/
def occursIn (pat : List Char) : List Char → Bool
  | [] => pat.isEmpty
  | c :: cs => pat.isPrefixOf (c :: cs) || occursIn pat cs

/-- Does `pat` occur as a contiguous substring of `s`? -/
def occursInStr (s pat : String) : Bool := occursIn pat.data s.data

theorem lookupStr_cons_self (k v : String) (m : EnvMap) :
    lookupStr ((k, v) :: m) k = some v := by
  simp [lookupStr]

/-- Claim C1 (counterexample): a template that references the variable `x`,
with `x` absent from the job's variable mapping, renders successfully to the
empty string — `render_prompt` does not fail, because `jinja2.Template` uses
the default `Undefined`, which prints as `""`.  The claim asserts rendering
fails and never silently produces output; here it silently produces `""`. -/
theorem C1_counterexample :
    parseTemplate "\x7b\x7b x \x7d\x7d" = [TPart.var "x"] ∧
    lookupStr ([] : EnvMap) "x" = none ∧
    render_prompt [("prompt_templates/t.txt", "\x7b\x7b x \x7d\x7d")]
      "prompt_templates/t.txt" ⟨[], "out.html", false⟩ = Except.ok "" := by
  refine ⟨by decide, rfl, rfl⟩

/-- Claim C1 (amended): `render_prompt` fails (propagates an error) exactly
when the template file is missing.  When the file exists it always succeeds,
whatever variables the template references; a variable reference absent from
the mapping renders as the empty string (Jinja2 default-`Undefined`
semantics), silently. -/
theorem C1_amended (fs : EnvMap) (path : String) (cfg : JobConfig) :
    (∀ text, lookupStr fs path = some text →
       render_prompt fs path cfg = Except.ok (renderParts (parseTemplate text) cfg.vars)) ∧
    (lookupStr fs path = none →
       render_prompt fs path cfg = Except.error ("FileNotFoundError: " ++ path)) ∧
    (∀ n, lookupStr cfg.vars n = none → renderParts [TPart.var n] cfg.vars = "") := by
  refine ⟨?_, ?_, ?_⟩
  · intro text h
    simp [render_prompt, h]
  · intro h
    simp [render_prompt, h]
  · intro n h
    show "" ++ ((lookupStr cfg.vars n).getD "") = ""
    rw [h]
    rfl

theorem C1_witness :
    lookupStr [("prompt_templates/greet.txt", "Hello \x7b\x7b name \x7d\x7d")]
        "prompt_templates/greet.txt" = some "Hello \x7b\x7b name \x7d\x7d" ∧
    render_prompt [("prompt_templates/greet.txt", "Hello \x7b\x7b name \x7d\x7d")]
        "prompt_templates/greet.txt" ⟨[("name", "World")], "o.html", false⟩ =
      Except.ok (renderParts (parseTemplate "Hello \x7b\x7b name \x7d\x7d")
        [("name", "World")]) :=
  ⟨rfl, (C1_amended [("prompt_templates/greet.txt", "Hello \x7b\x7b name \x7d\x7d")]
      "prompt_templates/greet.txt" ⟨[("name", "World")], "o.html", false⟩).1
    "Hello \x7b\x7b name \x7d\x7d" rfl⟩

/-- Claim C2 (counterexample): the template path for the job file base name
`a_prompt_b` is `prompt_templates/a_b.txt`, not
`prompt_templates/a_prompt_b.txt`: `str.replace('_prompt', '')` removes the
occurrence of `_prompt` in the middle of the name, while the claim asserts a
`_prompt` occurring other than as the suffix is preserved. -/
theorem C2_counterexample :
    tmplFile "a_prompt_b" = "prompt_templates/a_b.txt" ∧
    tmplFile "a_prompt_b" ≠ "prompt_templates/a_prompt_b.txt" := by
  exact ⟨by decide, by decide⟩

/-- Claim C4: with the region resolvable, an unset (absent or empty) bucket
variable for the selected environment makes `main` fail with the bucket
error, whose message names `S3_BUCKET_BETA` (for `"beta"`) resp.
`S3_BUCKET_PROD` (for `"prod"`).  The error is the same for every template
directory, every generation service, and every job list: no job definition
is consulted and no network call contributes to the outcome. -/
theorem C4_missing_bucket_fails_fast (osenv : EnvMap) (region : String)
    (hr : get_region osenv = Except.ok region) :
    (truthy (getenv osenv "S3_BUCKET_BETA") = false →
       (∀ fs br jobs, mainRun osenv fs br jobs "beta" = Except.error (bucketErrMsg "beta")) ∧
       occursInStr (bucketErrMsg "beta") "S3_BUCKET_BETA" = true) ∧
    (truthy (getenv osenv "S3_BUCKET_PROD") = false →
       (∀ fs br jobs, mainRun osenv fs br jobs "prod" = Except.error (bucketErrMsg "prod")) ∧
       occursInStr (bucketErrMsg "prod") "S3_BUCKET_PROD" = true) := by
  constructor
  · intro h
    refine ⟨?_, by decide⟩
    intro fs br jobs
    simp [mainRun, hr, selectBucket, h]
  · intro h
    refine ⟨?_, by decide⟩
    intro fs br jobs
    simp [mainRun, hr, selectBucket, h]

theorem C4_witness :
    get_region [("AWS_REGION", "us-east-1")] = Except.ok "us-east-1" ∧
    truthy (getenv [("AWS_REGION", "us-east-1")] "S3_BUCKET_BETA") = false ∧
    mainRun [("AWS_REGION", "us-east-1")] [] (fun _ _ => []) [] "beta" =
      Except.error (bucketErrMsg "beta") :=
  ⟨rfl, rfl,
    ((C4_missing_bucket_fails_fast [("AWS_REGION", "us-east-1")] "us-east-1" rfl).1 rfl).1
      [] (fun _ _ => []) []⟩

/-- Claim C5: when neither `AWS_REGION` nor `AWS_DEFAULT_REGION` is set to a
non-empty value, `get_region` fails with a message naming both variables and
the whole run fails with that same error whatever the filesystem, the
generation service, the job list and the environment selector are (so before
any remote client could matter).  When `AWS_REGION` is set non-empty,
`get_region` returns it; otherwise, when `AWS_DEFAULT_REGION` is set
non-empty, `get_region` returns that. -/
theorem C5_region_resolution (osenv : EnvMap) :
    (truthy (getenv osenv "AWS_REGION") = false →
     truthy (getenv osenv "AWS_DEFAULT_REGION") = false →
       get_region osenv = Except.error regionErrMsg ∧
       ∀ fs br jobs env, mainRun osenv fs br jobs env = Except.error regionErrMsg) ∧
    occursInStr regionErrMsg "AWS_REGION" = true ∧
    occursInStr regionErrMsg "AWS_DEFAULT_REGION" = true ∧
    (∀ v, getenv osenv "AWS_REGION" = some v → (v == "") = false →
       get_region osenv = Except.ok v) ∧
    (truthy (getenv osenv "AWS_REGION") = false →
     ∀ v, getenv osenv "AWS_DEFAULT_REGION" = some v → (v == "") = false →
       get_region osenv = Except.ok v) := by
  refine ⟨?_, by decide, by decide, ?_, ?_⟩
  · intro h1 h2
    have herr : get_region osenv = Except.error regionErrMsg := by
      cases hb : getenv osenv "AWS_DEFAULT_REGION" with
      | none => simp [get_region, pyOr, h1, hb]
      | some s =>
        have hs : (s == "") = true := by
          have := h2
          rw [hb] at this
          simpa [truthy] using this
        simp [get_region, pyOr, h1, hb, hs]
    refine ⟨herr, ?_⟩
    intro fs br jobs env
    simp [mainRun, herr]
  · intro v hv hne
    have hvne : v ≠ "" := by simpa using hne
    simp [get_region, pyOr, truthy, hv, hne, hvne]
  · intro h1 v hv hne
    simp [get_region, pyOr, h1, hv, hne]

theorem C5_witness :
    truthy (getenv ([] : EnvMap) "AWS_REGION") = false ∧
    truthy (getenv ([] : EnvMap) "AWS_DEFAULT_REGION") = false ∧
    get_region ([] : EnvMap) = Except.error regionErrMsg ∧
    mainRun ([] : EnvMap) [] (fun _ _ => []) [] "beta" = Except.error regionErrMsg :=
  ⟨rfl, rfl, ((C5_region_resolution []).1 rfl rfl).1,
    ((C5_region_resolution []).1 rfl rfl).2 [] (fun _ _ => []) [] "beta"⟩

/-- Claim C10: any environment selector other than the literal `"beta"`
(including `"staging"` or the empty string) is treated as prod: the bucket
read is `S3_BUCKET_PROD`, the key prefix is `PROD_PREFIX`, and — whenever the
prod bucket is set — the whole run behaves identically to a `"prod"` run, so
no error about the selector itself is ever raised. -/
theorem C10_nonbeta_is_prod (sel : String) (h : sel ≠ "beta") (osenv : EnvMap) :
    selectBucket osenv sel = getenv osenv "S3_BUCKET_PROD" ∧
    selectPfx osenv sel = prodPfx osenv ∧
    (truthy (getenv osenv "S3_BUCKET_PROD") = true →
      ∀ fs br jobs, mainRun osenv fs br jobs sel = mainRun osenv fs br jobs "prod") := by
  have hb : (sel == "beta") = false := by
    simp [h]
  refine ⟨by simp [selectBucket, hb], by simp [selectPfx, hb], ?_⟩
  intro htrue fs br jobs
  cases hreg : get_region osenv with
  | error e => simp [mainRun, hreg]
  | ok region =>
    simp [mainRun, hreg, selectBucket, selectPfx, hb, htrue]

theorem C10_witness :
    selectBucket [("S3_BUCKET_PROD", "pbucket")] "staging" =
      getenv [("S3_BUCKET_PROD", "pbucket")] "S3_BUCKET_PROD" ∧
    selectPfx [("S3_BUCKET_PROD", "pbucket")] "staging" =
      prodPfx [("S3_BUCKET_PROD", "pbucket")] :=
  ⟨(C10_nonbeta_is_prod "staging" (by decide) [("S3_BUCKET_PROD", "pbucket")]).1,
   (C10_nonbeta_is_prod "staging" (by decide) [("S3_BUCKET_PROD", "pbucket")]).2.1⟩

theorem processJob_err (fs : EnvMap) (br : String → Body → List Chunk)
    (region bucket pfx : String) (st : RunState) (stem : String) (cfg : JobConfig)
    (e : String) (hp : render_prompt fs (tmplFile stem) cfg = Except.error e) :
    processJob fs br region bucket pfx st (stem, cfg) = Except.error e := by
  simp [processJob, hp]

/-- Characterization of one successful loop iteration: the local store gains
the completion under `outputs/{rendered filename}`, and the upload trace is
extended by the primary upload and, iff `make_index` is set, the `index.html`
upload, both carrying the bytes just written. -/
theorem processJob_ok (fs : EnvMap) (br : String → Body → List Chunk)
    (region bucket pfx : String) (st : RunState) (stem : String) (cfg : JobConfig)
    (p : String) (hp : render_prompt fs (tmplFile stem) cfg = Except.ok p) :
    processJob fs br region bucket pfx st (stem, cfg) =
      Except.ok
        ⟨("outputs/" ++ renderOut cfg, call_bedrock br p 300 region) :: st.outputs,
         st.s3 ++ (bucket, pfx ++ renderOut cfg, call_bedrock br p 300 region) ::
           (if cfg.make_index then
              [(bucket, pfx ++ "index.html", call_bedrock br p 300 region)]
            else [])⟩ := by
  cases hmi : cfg.make_index <;>
    simp [processJob, hp, lookupStr_cons_self, hmi, List.append_assoc]

/-- Claim C6: a successful job iteration extends the upload trace by exactly
two uploads when `make_index` is true — one under `{prefix}{rendered
filename}` and one under `{prefix}index.html`, with the same content — and
by exactly one upload, under `{prefix}{rendered filename}` only, when
`make_index` is false. -/
theorem C6_upload_counts (fs : EnvMap) (br : String → Body → List Chunk)
    (region bucket pfx : String) (st : RunState) (stem : String) (cfg : JobConfig)
    (st' : RunState)
    (h : processJob fs br region bucket pfx st (stem, cfg) = Except.ok st') :
    ∃ c,
      (cfg.make_index = true →
        st'.s3 = st.s3 ++
          [(bucket, pfx ++ renderOut cfg, c), (bucket, pfx ++ "index.html", c)]) ∧
      (cfg.make_index = false →
        st'.s3 = st.s3 ++ [(bucket, pfx ++ renderOut cfg, c)]) := by
  cases hp : render_prompt fs (tmplFile stem) cfg with
  | error e =>
    rw [processJob_err fs br region bucket pfx st stem cfg e hp] at h
    cases h
  | ok p =>
    rw [processJob_ok fs br region bucket pfx st stem cfg p hp] at h
    cases h
    refine ⟨call_bedrock br p 300 region, ?_, ?_⟩ <;> intro hmi <;> simp [hmi]

theorem C6_witness :
    ∃ c,
      (JobConfig.make_index ⟨[], "o.html", true⟩ = true →
        ([("b", "p/o.html", "ok"), ("b", "p/index.html", "ok")] :
            List (String × String × String)) =
          [("b", "p/" ++ renderOut ⟨[], "o.html", true⟩, c), ("b", "p/" ++ "index.html", c)]) ∧
      (JobConfig.make_index ⟨[], "o.html", true⟩ = false →
        ([("b", "p/o.html", "ok"), ("b", "p/index.html", "ok")] :
            List (String × String × String)) =
          [("b", "p/" ++ renderOut ⟨[], "o.html", true⟩, c)]) :=
  C6_upload_counts [("prompt_templates/x.txt", "hi")] (fun _ _ => [⟨"ok"⟩]) "r" "b" "p/"
    ⟨[], []⟩ "x_prompt" ⟨[], "o.html", true⟩
    ⟨[("outputs/o.html", "ok")], [("b", "p/o.html", "ok"), ("b", "p/index.html", "ok")]⟩ rfl

/-- Claim C7: on a successful job iteration, the first new upload's key is
the run's prefix concatenated with the job's `output_file` rendered against
the job's `variables` by the very substitution mechanism of the prompts
(`renderOut` is `renderParts ∘ parseTemplate`, as in `render_prompt`); and on
the claim's example, `output_file` `report_<<id>>.html` (with brace markers)
and `variables` mapping `id` to `42` render to `report_42.html`. -/
theorem C7_output_filename_and_key (fs : EnvMap) (br : String → Body → List Chunk)
    (region bucket pfx : String) (st : RunState) (stem : String) (cfg : JobConfig)
    (st' : RunState)
    (h : processJob fs br region bucket pfx st (stem, cfg) = Except.ok st') :
    (∃ c rest, st'.s3 = st.s3 ++ (bucket, pfx ++ renderOut cfg, c) :: rest) ∧
    renderOut ⟨[("id", "42")], "report_\x7b\x7b id \x7d\x7d.html", false⟩ =
      "report_42.html" := by
  refine ⟨?_, by decide⟩
  cases hp : render_prompt fs (tmplFile stem) cfg with
  | error e =>
    rw [processJob_err fs br region bucket pfx st stem cfg e hp] at h
    cases h
  | ok p =>
    rw [processJob_ok fs br region bucket pfx st stem cfg p hp] at h
    cases h
    exact ⟨call_bedrock br p 300 region, _, rfl⟩

theorem C7_witness :
    (∃ c rest,
      ([("b", "p/o.html", "ok")] : List (String × String × String)) =
        (RunState.s3 ⟨[], []⟩) ++ ("b", "p/" ++ renderOut ⟨[], "o.html", false⟩, c) :: rest) ∧
    renderOut ⟨[("id", "42")], "report_\x7b\x7b id \x7d\x7d.html", false⟩ =
      "report_42.html" :=
  C7_output_filename_and_key [("prompt_templates/x.txt", "hi")] (fun _ _ => [⟨"ok"⟩])
    "r" "b" "p/" ⟨[], []⟩ "x_prompt" ⟨[], "o.html", false⟩
    ⟨[("outputs/o.html", "ok")], [("b", "p/o.html", "ok")]⟩ rfl

theorem string_foldl_append (l : List String) :
    ∀ acc : String, l.foldl (fun r s => r ++ s) acc =
      acc ++ l.foldr (fun s r => s ++ r) "" := by
  induction l with
  | nil => intro acc; simp [String.append_empty]
  | cons x xs ih =>
    intro acc
    simp only [List.foldl_cons, List.foldr_cons, ih (acc ++ x), String.append_assoc]

theorem string_join_eq_foldr (l : List String) :
    String.join l = l.foldr (fun s r => s ++ r) "" := by
  show l.foldl (fun r s => r ++ s) "" = _
  rw [string_foldl_append, String.empty_append]

/-- Claim C8: the request body is exactly the fixed envelope — protocol tag
`bedrock-2023-05-31`, the given token budget, and a single `user` message
whose content is the prompt prefixed by the fixed marker `Human: ` — and the
value `call_bedrock` returns is the in-order concatenation of the `text`
field of every chunk of the service's response to exactly that body. -/
theorem C8_request_envelope_and_concat (prompt : String) (maxTokens : Nat) :
    construct_body prompt maxTokens =
      ⟨"bedrock-2023-05-31", maxTokens, [⟨"user", "Human: " ++ prompt⟩]⟩ ∧
    ∀ (invoke : String → Body → List Chunk) (region : String),
      call_bedrock invoke prompt maxTokens region =
        (invoke region (construct_body prompt maxTokens)).foldr
          (fun ch acc => ch.text ++ acc) "" := by
  refine ⟨rfl, ?_⟩
  intro invoke region
  show String.join ((invoke region (construct_body prompt maxTokens)).map Chunk.text) = _
  rw [string_join_eq_foldr, List.foldr_map]

theorem runJobs_append (fs : EnvMap) (br : String → Body → List Chunk)
    (region bucket pfx : String) (l1 l2 : List (String × JobConfig)) :
    ∀ st : RunState,
      runJobs fs br region bucket pfx st (l1 ++ l2) =
        match runJobs fs br region bucket pfx st l1 with
        | Except.ok st1 => runJobs fs br region bucket pfx st1 l2
        | Except.error e => Except.error e := by
  induction l1 with
  | nil => intro st; simp [runJobs]
  | cons j rest ih =>
    intro st
    simp only [List.cons_append, runJobs]
    cases processJob fs br region bucket pfx st j with
    | ok st' => exact ih st'
    | error e => rfl

/-- Claim C3: there is no job-level error isolation.  With the configuration
resolved, if the jobs processed so far succeeded and the next job's
processing raises an error at any step, `main` terminates with exactly that
error whatever jobs follow in iteration order: no subsequent job definition
is processed, and the run's result carries no state for them (in particular
no uploads of theirs). -/
theorem C3_no_job_isolation (osenv fs : EnvMap) (br : String → Body → List Chunk)
    (env region : String) (jobs1 : List (String × JobConfig)) (stem : String)
    (cfg : JobConfig) (e : String) (rest : List (String × JobConfig)) (st1 : RunState)
    (hreg : get_region osenv = Except.ok region)
    (hb : truthy (selectBucket osenv env) = true)
    (h1 : runJobs fs br region ((selectBucket osenv env).getD "") (selectPfx osenv env)
            ⟨[], []⟩ jobs1 = Except.ok st1)
    (h2 : processJob fs br region ((selectBucket osenv env).getD "") (selectPfx osenv env)
            st1 (stem, cfg) = Except.error e) :
    mainRun osenv fs br (jobs1 ++ (stem, cfg) :: rest) env = Except.error e := by
  simp only [mainRun, hreg, hb, if_true]
  rw [runJobs_append, h1]
  simp only [runJobs, h2]

theorem C3_witness :
    mainRun [("AWS_REGION", "us-east-1"), ("S3_BUCKET_BETA", "b")] [] (fun _ _ => [])
      [("x_prompt", ⟨[], "o.html", false⟩), ("y_prompt", ⟨[], "o2.html", false⟩)] "beta" =
    Except.error "FileNotFoundError: prompt_templates/x.txt" :=
  C3_no_job_isolation [("AWS_REGION", "us-east-1"), ("S3_BUCKET_BETA", "b")] []
    (fun _ _ => []) "beta" "us-east-1" [] "x_prompt" ⟨[], "o.html", false⟩
    "FileNotFoundError: prompt_templates/x.txt" [("y_prompt", ⟨[], "o2.html", false⟩)]
    ⟨[], []⟩ rfl rfl rfl rfl

/-- Claim C9: two jobs of the same run whose `output_file` renders to the
same filename collide silently: processing both succeeds (no error is raised
for the collision), and afterwards the local output path and the shared
remote key both hold the completion of the second job in iteration order. -/
theorem C9_last_write_wins (fs : EnvMap) (br : String → Body → List Chunk)
    (region bucket pfx : String) (st : RunState) (s1 s2 : String)
    (cfg1 cfg2 : JobConfig) (p1 p2 : String)
    (h1 : render_prompt fs (tmplFile s1) cfg1 = Except.ok p1)
    (h2 : render_prompt fs (tmplFile s2) cfg2 = Except.ok p2)
    (hsame : renderOut cfg1 = renderOut cfg2) :
    ∃ st2, runJobs fs br region bucket pfx st [(s1, cfg1), (s2, cfg2)] = Except.ok st2 ∧
      lookupStr st2.outputs ("outputs/" ++ renderOut cfg1) =
        some (call_bedrock br p2 300 region) ∧
      s3Last st2.s3 bucket (pfx ++ renderOut cfg1) =
        some (call_bedrock br p2 300 region) := by
  rw [hsame]
  have e1 := processJob_ok fs br region bucket pfx st s1 cfg1 p1 h1
  have e2 := processJob_ok fs br region bucket pfx
    ⟨("outputs/" ++ renderOut cfg1, call_bedrock br p1 300 region) :: st.outputs,
     st.s3 ++ (bucket, pfx ++ renderOut cfg1, call_bedrock br p1 300 region) ::
       (if cfg1.make_index then
         [(bucket, pfx ++ "index.html", call_bedrock br p1 300 region)] else [])⟩
    s2 cfg2 p2 h2
  refine
    ⟨⟨("outputs/" ++ renderOut cfg2, call_bedrock br p2 300 region) ::
        ("outputs/" ++ renderOut cfg1, call_bedrock br p1 300 region) :: st.outputs,
      (st.s3 ++ (bucket, pfx ++ renderOut cfg1, call_bedrock br p1 300 region) ::
         (if cfg1.make_index then
           [(bucket, pfx ++ "index.html", call_bedrock br p1 300 region)] else [])) ++
        (bucket, pfx ++ renderOut cfg2, call_bedrock br p2 300 region) ::
         (if cfg2.make_index then
           [(bucket, pfx ++ "index.html", call_bedrock br p2 300 region)] else [])⟩,
     ?_, ?_, ?_⟩
  · simp only [runJobs, e1, e2]
  · exact lookupStr_cons_self _ _ _
  · show s3Last
      ((st.s3 ++ (bucket, pfx ++ renderOut cfg1, call_bedrock br p1 300 region) ::
          (if cfg1.make_index then
            [(bucket, pfx ++ "index.html", call_bedrock br p1 300 region)] else [])) ++
        (bucket, pfx ++ renderOut cfg2, call_bedrock br p2 300 region) ::
          (if cfg2.make_index then
            [(bucket, pfx ++ "index.html", call_bedrock br p2 300 region)] else []))
      bucket (pfx ++ renderOut cfg2) = some (call_bedrock br p2 300 region)
    unfold s3Last
    cases hmi : cfg2.make_index with
    | false =>
      simp [hmi, List.reverse_append, List.find?]
    | true =>
      simp only [hmi, if_true]
      rw [List.reverse_append]
      simp only [List.reverse_cons, List.reverse_nil, List.nil_append, List.append_assoc,
        List.cons_append, List.find?]
      cases hk : ((bucket == bucket) && ((pfx ++ "index.html") == (pfx ++ renderOut cfg2))) with
      | true =>
        have : (pfx ++ "index.html") = (pfx ++ renderOut cfg2) := by
          have hb := (Bool.and_eq_true _ _).mp hk
          exact eq_of_beq hb.2
        simp [hk, this]
      | false =>
        simp [hk]

theorem C9_witness :
    ∃ st2,
      runJobs [("prompt_templates/a.txt", "A"), ("prompt_templates/b.txt", "B")]
          (fun _ b => b.messages.map (fun m => ⟨m.content⟩)) "r" "b" "p/" ⟨[], []⟩
          [("a_prompt", ⟨[], "same.html", false⟩), ("b_prompt", ⟨[], "same.html", true⟩)] =
        Except.ok st2 ∧
      lookupStr st2.outputs ("outputs/" ++ renderOut ⟨[], "same.html", false⟩) =
        some (call_bedrock (fun _ b => b.messages.map (fun m => ⟨m.content⟩)) "B" 300 "r") ∧
      s3Last st2.s3 "b" ("p/" ++ renderOut ⟨[], "same.html", false⟩) =
        some (call_bedrock (fun _ b => b.messages.map (fun m => ⟨m.content⟩)) "B" 300 "r") :=
  C9_last_write_wins [("prompt_templates/a.txt", "A"), ("prompt_templates/b.txt", "B")]
    (fun _ b => b.messages.map (fun m => ⟨m.content⟩)) "r" "b" "p/" ⟨[], []⟩
    "a_prompt" "b_prompt" ⟨[], "same.html", false⟩ ⟨[], "same.html", true⟩
    "A" "B" rfl rfl rfl

theorem replaceAllAux_nil (pat repl : List Char) (fuel : Nat) :
    replaceAllAux pat repl fuel [] = [] := by
  cases fuel <;> rfl

/-- The pattern `_prompt` has no nontrivial self-overlap: no proper nonempty
prefix of it is also one of its suffixes in the relevant alignment.  This is
what rules out an occurrence of the pattern spanning the boundary between a
clean base name and an appended `_prompt` suffix. -/
theorem promptPat_no_overlap :
    ∀ k, 0 < k → k < ("_prompt".data).length →
      List.drop k "_prompt".data ≠ List.take (("_prompt".data).length - k) "_prompt".data := by
  intro k h1 h2
  have h7 : ("_prompt".data).length = 7 := by decide
  rw [h7] at h2 ⊢
  interval_cases k <;> decide

/-- Left-to-right replacement of a non-self-overlapping pattern by the empty
string, applied to `s ++ pat` where `pat` does not occur in `s`, strips
exactly the final `pat`. -/
theorem replaceAllAux_strip (pat : List Char) (hne : pat ≠ [])
    (hov : ∀ k, 0 < k → k < pat.length →
      List.drop k pat ≠ List.take (pat.length - k) pat) :
    ∀ s : List Char, occursIn pat s = false →
    ∀ fuel, s.length + pat.length ≤ fuel →
      replaceAllAux pat [] fuel (s ++ pat) = s := by
  intro s
  induction s with
  | nil =>
    intro _ fuel hf
    obtain ⟨p0, pr, rfl⟩ : ∃ p0 pr, pat = p0 :: pr := by
      cases pat with
      | nil => exact absurd rfl hne
      | cons a b => exact ⟨a, b, rfl⟩
    cases fuel with
    | zero => simp at hf
    | succ f =>
      rw [List.nil_append]
      have hpre : (p0 :: pr).isPrefixOf (p0 :: pr) = true := by
        rw [List.isPrefixOf_iff_prefix]
      simp only [replaceAllAux, hpre, if_true, List.nil_append]
      rw [List.drop_length, replaceAllAux_nil]
  | cons c s2 ih =>
    intro hocc fuel hf
    have hsplit : pat.isPrefixOf (c :: s2) = false ∧ occursIn pat s2 = false := by
      have : (pat.isPrefixOf (c :: s2) || occursIn pat s2) = false := hocc
      constructor
      · exact (Bool.or_eq_false_iff.mp this).1
      · exact (Bool.or_eq_false_iff.mp this).2
    cases fuel with
    | zero =>
      have hpos : 0 < pat.length := List.length_pos.mpr hne
      simp only [List.length_cons] at hf
      omega
    | succ f =>
      have hnp : pat.isPrefixOf (c :: s2 ++ pat) = false := by
        by_contra hcon
        have hpre : pat <+: ((c :: s2) ++ pat) := by
          rw [← List.isPrefixOf_iff_prefix]
          revert hcon
          cases pat.isPrefixOf ((c :: s2) ++ pat) <;> simp
        by_cases hle : pat.length ≤ (c :: s2).length
        · have heq : pat = List.take pat.length ((c :: s2) ++ pat) :=
            List.prefix_iff_eq_take.mp hpre
          rw [List.take_append_eq_append_take, Nat.sub_eq_zero_of_le hle, List.take_zero,
            List.append_nil] at heq
          have : pat <+: (c :: s2) := by
            rw [heq]
            exact List.take_prefix _ _
          rw [← List.isPrefixOf_iff_prefix] at this
          rw [this] at hsplit
          exact Bool.noConfusion hsplit.1
        · push_neg at hle
          have heq : pat = List.take pat.length ((c :: s2) ++ pat) :=
            List.prefix_iff_eq_take.mp hpre
          rw [List.take_append_eq_append_take,
            List.take_of_length_le (Nat.le_of_lt hle)] at heq
          have hdrop : List.drop (c :: s2).length pat =
              List.take (pat.length - (c :: s2).length) pat := by
            conv_lhs => rw [heq]
            rw [List.drop_left]
          exact hov (c :: s2).length (by simp) hle hdrop
      have hstep : replaceAllAux pat [] (f + 1) ((c :: s2) ++ pat) =
          c :: replaceAllAux pat [] f (s2 ++ pat) := by
        rw [List.cons_append]
        simp only [replaceAllAux]
        rw [← List.cons_append, hnp]
        simp
      rw [hstep, ih hsplit.2 f (by simp at hf ⊢; omega)]

/-- Claim C2 (amended): the prompt template path is obtained by removing
every left-to-right non-overlapping occurrence of `_prompt` from the job
file's base name (Python `str.replace('_prompt', '')`) and appending `.txt`
inside `prompt_templates/`.  For a base name `foo_prompt` whose stem `foo`
contains no `_prompt`, this coincides with stripping the suffix: the
template is `foo.txt`.  A `_prompt` occurring elsewhere in the base name is
removed as well, not preserved. -/
theorem C2_amended (s : String) (h : occursInStr s "_prompt" = false) :
    tmplFile (s ++ "_prompt") = "prompt_templates/" ++ s ++ ".txt" := by
  have key : replaceAll (s ++ "_prompt") "_prompt" "" = s := by
    show String.mk (replaceAllAux "_prompt".data [] (s ++ "_prompt").data.length
      (s ++ "_prompt").data) = s
    have hd : (s ++ "_prompt").data = s.data ++ "_prompt".data := String.data_append s "_prompt"
    rw [hd]
    have h7 : ("_prompt".data).length = 7 := by decide
    have hlen : (s.data ++ "_prompt".data).length = s.data.length + 7 := by
      rw [List.length_append, h7]
    rw [hlen, replaceAllAux_strip "_prompt".data (by decide) promptPat_no_overlap s.data h
      (s.data.length + 7) (Nat.le_refl _)]
  show "prompt_templates/" ++ replaceAll (s ++ "_prompt") "_prompt" "" ++ ".txt" = _
  rw [key]

theorem C2_witness :
    occursInStr "foo" "_prompt" = false ∧
    tmplFile ("foo" ++ "_prompt") = "prompt_templates/" ++ "foo" ++ ".txt" :=
  ⟨rfl, C2_amended "foo" rfl⟩
